import Mathlib

/-!
# Verification of the grand-challenge DICOM de-identifier rule engine

Shallow embedding of `grand_challenge_dicom_de_identifier/deidentifier.py`.

The record (pydicom `Dataset`) is modelled as an ordered association list of
data elements; the policy ("procedure") as the nested mapping the source
consumes, with `Option` fields for keys the source reads with `.get`.
Python exceptions are modelled with `Except`: an error value carries the
exception together with the engine and dataset state at raise time, since the
source mutates the dataset in place and an escaping exception leaves it in its
partially processed state.

Two pieces of this repository are imported by `deidentifier.py` but their
modules are not part of the sources at hand (`models.py`, `exceptions.py`);
they are modelled from the spec where noted. The external `pydicom` collaborator
(dataset access, `walk`, `generate_uid`) is modelled per the spec's external
interface description.
-/

namespace DicomDeid

/-- The `ActionKind` enumeration (`models.py`). Modelled from the spec: a closed
enumeration `Remove`, `Keep`, `ReplaceWithDummy`, `ReplaceWithZeroLength`,
`RemapUid`, `Reject`. The extra `invalid` constructor stands for any non-member
value that the loosely typed policy mapping may carry (such as the tests'
`"NOT_A_VALID_ACTION"`); it compares unequal to every proper member, exactly as
an arbitrary string compares unequal to every enum member in the source. -/
inductive ActionKind where
  | remove
  | keep
  | reject
  | uid
  | replace
  | replace0
  | invalid (s : String)
deriving DecidableEq, Repr

/-- Modelled from the spec: the rendering of an action in diagnostic f-strings
(`f"Default action {default} not implemented"`). The exact `str()` of the enum
members lives in the missing `models.py`; only the rendering of non-member
(string) values is observable in the sources, and no claim inspects the member
renderings. -/
def ActionKind.render : ActionKind → String
  | .remove => "ActionKind.REMOVE"
  | .keep => "ActionKind.KEEP"
  | .reject => "ActionKind.REJECT"
  | .uid => "ActionKind.UID"
  | .replace => "ActionKind.REPLACE"
  | .replace0 => "ActionKind.REPLACE_0"
  | .invalid s => s

/-- A DICOM element value. The source only ever stores strings, byte strings,
integers, the float `0.0`, the empty sequence (from `VR_DUMMY_VALUES`), and the
opaque identifiers minted by `pydicom.uid.generate_uid`. The `vuid` constructor
is modelled from the spec: `generate_uid(prefix=GRAND_CHALLENGE_ROOT_UID)` is an
external collision-resistant identifier-generation primitive, modelled as an
opaque identifier token recording the engine instance's randomness source and
the generation index — the spec places the generation algorithm itself outside
the engine and makes memoization and freshness the properties under test. -/
inductive DValue where
  | vstr (s : String)
  | vbytes (bs : List Nat)
  | vint (n : Int)
  | vfloat0
  | vemptyseq
  | vuid (seed idx : Nat)
deriving DecidableEq, Repr

/-- A tag rule (`{"default": <action>, "justification"?: <str>}`): the value
of one key of a `tags` mapping. `default` is a required key in the source
(read with `action_desc["default"]`), `justification` optional (read with
`.get("justification", "")`). -/
structure ElementRule where
  default : ActionKind
  justification : Option String
deriving DecidableEq, Repr

/-- One SOP-class procedure (`{"default"?, "justification"?, "tags"}`); the
source reads `default` and `justification` with `.get` and `tags` with
mandatory indexing. -/
structure ClassProcedure where
  default : Option ActionKind
  justification : Option String
  tags : List (String × ElementRule)
deriving DecidableEq, Repr

/-- The root procedure mapping (`{"default"?, "version"?, "justification"?,
"sopClass"?}`); every key is read with `.get` or inside a `try/except KeyError`. -/
structure Procedure where
  default : Option ActionKind
  version : Option String
  justification : Option String
  sopClass : Option (List (String × ClassProcedure))
deriving DecidableEq, Repr

/-- The empty procedure `{}` (the fallback of `procedure or {}`). -/
def emptyProcedure : Procedure :=
  { default := none, version := none, justification := none, sopClass := none }

/-- Python `dict` lookup on an association list (first match; dict keys are
unique, so first-match agrees with the dict). -/
def lookupA {κ α : Type} [DecidableEq κ] : List (κ × α) → κ → Option α
  | [], _ => none
  | (k, v) :: rest, key => if key = k then some v else lookupA rest key

/-- A data element: tag (as the string `str(elem.tag)` used for rule lookup),
value representation, and value. -/
structure DataElement where
  tag : String
  vr : String
  value : DValue
deriving DecidableEq, Repr

/-- A pydicom dataset: an ordered collection of data elements keyed by tag.
Tags are unique in a real (dict-backed) dataset; the walk model is exact for
such datasets. -/
structure Dataset where
  elems : List DataElement
deriving DecidableEq, Repr

/-- `dataset[tag]` / `tag in dataset`: first element with the given tag. -/
def findTag : List DataElement → String → Option DataElement
  | [], _ => none
  | e :: es, t => if e.tag = t then some e else findTag es t

/-- `del dataset[tag]`: removal of the entry with the given tag (on a
dict-backed dataset the tag occurs at most once). -/
def deleteTag : List DataElement → String → List DataElement
  | [], _ => []
  | e :: es, t => if e.tag = t then deleteTag es t else e :: deleteTag es t

/-- `elem.value = v`: in-place update of the value of the (unique) element
with the given tag; never inserts. -/
def setTagValue : List DataElement → String → DValue → List DataElement
  | [], _, _ => []
  | e :: es, t, v => if e.tag = t then { e with value := v } :: es else e :: setTagValue es t v

/-- `dataset.add_new(tag, VR, value)` (i.e. `dataset[tag] = DataElement(...)`):
replace the element at the tag if present, otherwise add a new element. -/
def addNew : List DataElement → DataElement → List DataElement
  | [], ne => [ne]
  | e :: es, ne => if e.tag = ne.tag then ne :: es else e :: addNew es ne

/-- The rendering of an element value used when a value is interpolated into a
string or used as a mapping key (`str(...)` / dict key identity). For the
string values the source actually handles this is the string itself. -/
def DValue.keyStr : DValue → String
  | .vstr s => s
  | .vbytes bs => "bytes:" ++ toString bs
  | .vint n => toString n
  | .vfloat0 => "0.0"
  | .vemptyseq => "[]"
  | .vuid seed idx => "uid:" ++ toString seed ++ "." ++ toString idx

/-- The tag of the SOP Class UID element, `(0008,0016)`: `dataset.SOPClassUID`
reads this element's value and raises `AttributeError` when it is absent. -/
def SOP_CLASS_UID_TAG : String := "(0008,0016)"

/-- The tag of the De-identification Method element, `(0012,0063)` (the
`DeidentificationMethod` keyword). -/
def DEID_METHOD_TAG : String := "(0012,0063)"

/-- `dataset.SOPClassUID`: the record's class identifier, `none` when the
element is absent (an `AttributeError` in the source). -/
def Dataset.sopClassUID (ds : Dataset) : Option String :=
  (findTag ds.elems SOP_CLASS_UID_TAG).map (fun e => e.value.keyStr)

/-- The Python exceptions the engine can raise. -/
inductive DeidError where
  | rejected (justification : String)
  | notImplemented (msg : String)
  | attributeError (name : String)
  | keyError (key : String)
deriving DecidableEq, Repr

/-- Modelled from the spec: `RejectedDICOMFileError` (`exceptions.py`) carries a
human-readable justification and, per the spec's error-handling design and the
tests (`match="no justification provided"` when the policy configures none),
falls back to the fixed literal `"no justification provided"` when handed an
empty justification, so a rejection never carries an empty string. -/
def RejectedDICOMFileError (justification : String) : DeidError :=
  .rejected (if justification = "" then "no justification provided" else justification)

/-- Decidable equality for `Except` results, used to evaluate concrete runs. -/
instance {E A : Type} [DecidableEq E] [DecidableEq A] : DecidableEq (Except E A)
  | .error a, .error b =>
    if h : a = b then .isTrue (by rw [h]) else .isFalse (fun he => h (by injection he))
  | .error _, .ok _ => .isFalse (fun he => Except.noConfusion he)
  | .ok _, .error _ => .isFalse (fun he => Except.noConfusion he)
  | .ok a, .ok b =>
    if h : a = b then .isTrue (by rw [h]) else .isFalse (fun he => h (by injection he))

/-- `GRAND_CHALLENGE_ROOT_UID`. -/
def GRAND_CHALLENGE_ROOT_UID : String := "1.2.826.0.1.3680043.10.1666."

/-- `VR_DUMMY_VALUES`: the fixed VR-to-placeholder table. -/
def VR_DUMMY_VALUES : List (String × DValue) :=
  [ ("AE", .vstr "DUMMY_AE"),
    ("AS", .vstr "030Y"),
    ("AT", .vbytes [0, 0, 0, 0]),
    ("CS", .vstr "DUMMY"),
    ("DA", .vstr "20000101"),
    ("DS", .vstr "0.0"),
    ("DT", .vstr "20000101120000.000000"),
    ("FL", .vfloat0),
    ("FD", .vfloat0),
    ("IS", .vstr "0"),
    ("LO", .vstr "DUMMY_LONG_STRING"),
    ("LT", .vstr "DUMMY LONG TEXT"),
    ("OB", .vbytes [0]),
    ("OD", .vbytes [0, 0, 0, 0, 0, 0, 0, 0]),
    ("OF", .vbytes [0, 0, 0, 0]),
    ("OL", .vbytes [0, 0, 0, 0]),
    ("OV", .vbytes [0, 0, 0, 0, 0, 0, 0, 0]),
    ("OW", .vbytes [0, 0]),
    ("PN", .vstr "DUMMY^PATIENT^^^"),
    ("SH", .vstr "DUMMY"),
    ("SL", .vint 0),
    ("SQ", .vemptyseq),
    ("SS", .vint 0),
    ("ST", .vstr "DUMMY SHORT TEXT"),
    ("SV", .vint 0),
    ("TM", .vstr "120000.000000"),
    ("UC", .vstr "DUMMY UNLIMITED CHARACTERS"),
    ("UI", .vstr "1.2.3.4.5.6.7.8.9.0.1.2.3.4.5.6.7.8.9.0"),
    ("UL", .vint 0),
    ("UN", .vbytes [0]),
    ("UR", .vstr "http://dummy.example.test"),
    ("US", .vint 0),
    ("UT", .vstr "DUMMY UNLIMITED TEXT"),
    ("UV", .vint 0) ]

/-- `_get_dummy_value`: table lookup, `NotImplementedError` on an unknown VR. -/
def getDummyValue (vr : String) : Except DeidError DValue :=
  match lookupA VR_DUMMY_VALUES vr with
  | some v => .ok v
  | none => .error (.notImplemented ("Unsupported DICOM VR: " ++ vr))

/-- The engine instance: the stored procedure, the per-instance randomness
source of `generate_uid` (each constructed instance draws from its own), the
memoization table `uid_map` (a `defaultdict` keyed by original element value),
and the number of identifiers generated so far. -/
structure Engine where
  procedure : Procedure
  seed : Nat
  uidMap : List (DValue × DValue)
  counter : Nat
deriving DecidableEq, Repr

/-- `DicomDeidentifier.__init__`: store `procedure or {}` and create the empty
`uid_map` whose default factory mints fresh identifiers under
`GRAND_CHALLENGE_ROOT_UID`. `seed` models the fresh per-instance randomness
source of the factory's `generate_uid`. -/
def DicomDeidentifier.init (procedure : Option Procedure) (seed : Nat) : Engine :=
  { procedure := procedure.getD emptyProcedure, seed := seed, uidMap := [], counter := 0 }

/-- `self.uid_map[original_value]` on the `defaultdict`: return the memoized
identifier, or mint a fresh one, record it, and return it. -/
def Engine.remap (eng : Engine) (v : DValue) : Engine × DValue :=
  match lookupA eng.uidMap v with
  | some u => (eng, u)
  | none =>
    let u := DValue.vuid eng.seed eng.counter
    ({ eng with uidMap := eng.uidMap ++ [(v, u)], counter := eng.counter + 1 }, u)

/-- A resolved `(action, justification)` pair (the two locals of
`_handle_element` after the `try/except/else`). -/
structure ResolvedRule where
  action : ActionKind
  justification : String
deriving DecidableEq, Repr

/-- The `try/except KeyError/else` of `_handle_element`: a tag-specific rule
(with `""` as its justification fallback) overrides the class-level default
pair handed in by `deidentify_dataset`. -/
def resolveRule (actionLookup : List (String × ElementRule)) (defaultAction : ResolvedRule)
    (tag : String) : ResolvedRule :=
  match lookupA actionLookup tag with
  | some r => { action := r.default, justification := r.justification.getD "" }
  | none => defaultAction

/-- The `if/elif/else` chain of `_handle_element` applied to the resolved
`(action, justification)` pair: delete, keep, raise the rejection, remap the
value through the `uid_map`, substitute the VR-appropriate dummy value, or
raise `NotImplementedError` for a non-member action.
An error carries the engine and dataset state at raise time (the source raises
out of an in-place mutation pipeline). -/
def applyAction (eng : Engine) (ds : Dataset) (e : DataElement) (r : ResolvedRule) :
    Except (DeidError × Engine × Dataset) (Engine × Dataset) :=
  match r.action with
  | .remove => .ok (eng, ⟨deleteTag ds.elems e.tag⟩)
  | .keep => .ok (eng, ds)
  | .reject => .error (RejectedDICOMFileError r.justification, eng, ds)
  | .uid => .ok ((eng.remap e.value).1, ⟨setTagValue ds.elems e.tag (eng.remap e.value).2⟩)
  | .replace =>
    match getDummyValue e.vr with
    | .ok v => .ok (eng, ⟨setTagValue ds.elems e.tag v⟩)
    | .error err => .error (err, eng, ds)
  | .replace0 =>
    match getDummyValue e.vr with
    | .ok v => .ok (eng, ⟨setTagValue ds.elems e.tag v⟩)
    | .error err => .error (err, eng, ds)
  | .invalid s => .error (.notImplemented ("Action " ++ s ++ " not implemented"), eng, ds)

/-- `_handle_element`: resolve the rule for the element's tag and apply it. -/
def handleElement (eng : Engine) (actionLookup : List (String × ElementRule))
    (defaultAction : ResolvedRule) (ds : Dataset) (e : DataElement) :
    Except (DeidError × Engine × Dataset) (Engine × Dataset) :=
  applyAction eng ds e (resolveRule actionLookup defaultAction e.tag)

/-- `dataset.walk(...)`: visit the snapshot of element tags taken before any
mutation, fetching each element from the current dataset (`self[tag]`; pydicom
raises `KeyError` if a callback removed a tag still on the snapshot, which no
callback of this engine does for another element's tag). -/
def walkTags (actionLookup : List (String × ElementRule)) (defaultAction : ResolvedRule) :
    List String → Engine → Dataset → Except (DeidError × Engine × Dataset) (Engine × Dataset)
  | [], eng, ds => .ok (eng, ds)
  | t :: rest, eng, ds =>
    match findTag ds.elems t with
    | none => .error (.keyError t, eng, ds)
    | some e =>
      match handleElement eng actionLookup defaultAction ds e with
      | .error err => .error err
      | .ok (eng', ds') => walkTags actionLookup defaultAction rest eng' ds'

/-- The three-way outcome of `self.procedure["sopClass"][dataset.SOPClassUID]`
inside `try/except KeyError`: a hit, a `KeyError` (caught: either the
procedure has no `"sopClass"` key or the class identifier is not a key of it),
or an `AttributeError` from `dataset.SOPClassUID` (not caught). -/
inductive SopLookupOutcome where
  | found (cp : ClassProcedure)
  | keyMiss
  | attrMiss
deriving DecidableEq, Repr

/-- Evaluation of `self.procedure["sopClass"][dataset.SOPClassUID]`, in the
source's evaluation order. -/
def sopClassLookup (sopClass : Option (List (String × ClassProcedure))) (ds : Dataset) :
    SopLookupOutcome :=
  match sopClass with
  | none => .keyMiss
  | some rules =>
    match ds.sopClassUID with
    | none => .attrMiss
    | some uid =>
      match lookupA rules uid with
      | some cp => .found cp
      | none => .keyMiss

/-- `_get_sop_class_procedure`: on a caught `KeyError`, consult the global
default (`Reject` when unspecified). On `Reject`, the fallback justification
f-string is evaluated eagerly — before `.get` looks for a configured
justification — and reads `dataset.SOPClassUID`, so it raises `AttributeError`
for a record with no class identifier. On `Keep`, synthesize the permissive
class procedure. Anything else: `NotImplementedError`. -/
def getSopClassProcedure (proc : Procedure) (ds : Dataset) : Except DeidError ClassProcedure :=
  match sopClassLookup proc.sopClass ds with
  | .found cp => .ok cp
  | .attrMiss => .error (.attributeError "SOPClassUID")
  | .keyMiss =>
    let d := proc.default.getD .reject
    if d = .reject then
      match ds.sopClassUID with
      | none => .error (.attributeError "SOPClassUID")
      | some uid =>
        .error (RejectedDICOMFileError
          (proc.justification.getD ("SOP Class " ++ uid ++ " is not supported")))
    else if d = .keep then
      .ok { default := some .keep, justification := none, tags := [] }
    else
      .error (.notImplemented ("Default action " ++ d.render ++ " not implemented"))

/-- `dataset.get("DeidentificationMethod", "")`: the pre-existing provenance
text, `""` when the element is absent (a non-string value there is outside the
modelled value space; the element's VR is LO, a string). -/
def existingDeidMethod (ds : Dataset) : String :=
  match findTag ds.elems DEID_METHOD_TAG with
  | some e =>
    match e.value with
    | .vstr s => s
    | _ => ""
  | none => ""

/-- The provenance text for one run (`method` in the source); `now` is the
`datetime.now().isoformat()` clock reading. -/
def deidMethodText (proc : Procedure) (now : String) : String :=
  "De-identified by Python DICOM de-identifier using procedure version "
    ++ proc.version.getD "unknown" ++ " on " ++ now ++ "."

/-- `set_deidentification_method_tag`: join any pre-existing provenance text
with the new text using `"; "` and store the result at `(0012,0063)` with VR
`LO`. -/
def setDeidentificationMethodTag (proc : Procedure) (now : String) (ds : Dataset) : Dataset :=
  let method := deidMethodText proc now
  let existing := existingDeidMethod ds
  let newMethod := if existing = "" then method else existing ++ "; " ++ method
  ⟨addNew ds.elems { tag := DEID_METHOD_TAG, vr := "LO", value := .vstr newMethod }⟩

/-- `deidentify_dataset`: resolve the class procedure (may raise before any
element is visited), walk every element with the class-level default pair
(`Remove` and `""` when unconfigured), then stamp the provenance element. -/
def deidentifyDataset (eng : Engine) (now : String) (ds : Dataset) :
    Except (DeidError × Engine × Dataset) (Engine × Dataset) :=
  match getSopClassProcedure eng.procedure ds with
  | .error err => .error (err, eng, ds)
  | .ok cp =>
    let da : ResolvedRule :=
      { action := cp.default.getD .remove, justification := cp.justification.getD "" }
    match walkTags cp.tags da (ds.elems.map (fun e => e.tag)) eng ds with
    | .error err => .error err
    | .ok (eng', ds') => .ok (eng', setDeidentificationMethodTag eng.procedure now ds')

/-- A sequence of `RemapUid` applications through one engine instance. -/
def remapList (eng : Engine) : List DValue → Engine
  | [] => eng
  | v :: vs => remapList (eng.remap v).1 vs

/-- Whether the outcome of a processing run is the policy rejection. -/
def isRejectedOutcome : Except (DeidError × Engine × Dataset) (Engine × Dataset) → Bool
  | .error (.rejected _, _, _) => true
  | _ => false

/-! ## Association-list lemmas -/

theorem lookupA_append_left {κ α : Type} [DecidableEq κ] {l : List (κ × α)} {k : κ} {v : α}
    (l' : List (κ × α)) (h : lookupA l k = some v) : lookupA (l ++ l') k = some v := by
  induction l with
  | nil => simp [lookupA] at h
  | cons p rest ih =>
    obtain ⟨a, b⟩ := p
    rw [List.cons_append]
    simp only [lookupA] at h ⊢
    by_cases hk : k = a
    · simpa [hk] using h
    · rw [if_neg hk] at h ⊢
      exact ih h

theorem lookupA_append_of_none {κ α : Type} [DecidableEq κ] {l : List (κ × α)} {k : κ}
    (l' : List (κ × α)) (h : lookupA l k = none) : lookupA (l ++ l') k = lookupA l' k := by
  induction l with
  | nil => simp
  | cons p rest ih =>
    obtain ⟨a, b⟩ := p
    rw [List.cons_append]
    simp only [lookupA] at h ⊢
    by_cases hk : k = a
    · rw [if_pos hk] at h; exact absurd h (by simp)
    · rw [if_neg hk] at h ⊢
      exact ih h

theorem lookupA_mem {κ α : Type} [DecidableEq κ] {l : List (κ × α)} {k : κ} {v : α}
    (h : lookupA l k = some v) : (k, v) ∈ l := by
  induction l with
  | nil => simp [lookupA] at h
  | cons p rest ih =>
    obtain ⟨a, b⟩ := p
    simp only [lookupA] at h
    by_cases hk : k = a
    · rw [if_pos hk] at h
      subst hk
      obtain rfl : b = v := by simpa using h
      exact List.mem_cons_self _ _
    · rw [if_neg hk] at h
      exact List.mem_cons_of_mem _ (ih h)

theorem lookupA_perm {κ α : Type} [DecidableEq κ] {l l' : List (κ × α)}
    (hp : l.Perm l') (hnd : (l.map Prod.fst).Nodup) (k : κ) :
    lookupA l k = lookupA l' k := by
  induction hp with
  | nil => rfl
  | cons p _ ih =>
    obtain ⟨a, b⟩ := p
    simp only [lookupA]
    simp only [List.map_cons, List.nodup_cons] at hnd
    by_cases hk : k = a
    · simp [hk]
    · rw [if_neg hk, if_neg hk]
      exact ih hnd.2
  | swap p q rest =>
    obtain ⟨a, b⟩ := p
    obtain ⟨c, d⟩ := q
    simp only [lookupA]
    simp only [List.map_cons, List.nodup_cons, List.mem_cons] at hnd
    by_cases hkc : k = c
    · have hca : ¬ c = a := fun h => hnd.1 (Or.inl h)
      simp [hkc, hca]
    · by_cases hka : k = a
      · have hac : ¬ a = c := fun h => hkc (hka.trans h)
        simp [hka, hac]
      · simp [hkc, hka]
  | trans h₁ h₂ ih₁ ih₂ =>
    refine (ih₁ hnd).trans (ih₂ ?_)
    have : (List.map Prod.fst _).Perm _ := h₁.map Prod.fst
    exact this.nodup_iff.mp hnd

/-! ## Dataset-operation lemmas -/

theorem findTag_tag_eq {l : List DataElement} {t : String} {e : DataElement}
    (h : findTag l t = some e) : e.tag = t := by
  induction l with
  | nil => simp [findTag] at h
  | cons x rest ih =>
    simp only [findTag] at h
    by_cases hx : x.tag = t
    · rw [if_pos hx] at h
      obtain rfl : x = e := by simpa using h
      exact hx
    · rw [if_neg hx] at h
      exact ih h

theorem findTag_isSome_of_mem {l : List DataElement} {e : DataElement} (h : e ∈ l) :
    (findTag l e.tag).isSome := by
  induction l with
  | nil => simp at h
  | cons x rest ih =>
    simp only [findTag]
    by_cases hx : x.tag = e.tag
    · simp [hx]
    · rw [if_neg hx]
      rcases List.mem_cons.mp h with rfl | hmem
      · exact absurd rfl hx
      · exact ih hmem

theorem findTag_deleteTag_self (l : List DataElement) (t : String) :
    findTag (deleteTag l t) t = none := by
  induction l with
  | nil => simp [deleteTag, findTag]
  | cons x rest ih =>
    simp only [deleteTag]
    by_cases hx : x.tag = t
    · rw [if_pos hx]; exact ih
    · rw [if_neg hx]
      simp only [findTag]
      rw [if_neg hx]
      exact ih

theorem findTag_deleteTag_ne {u t : String} (l : List DataElement) (h : u ≠ t) :
    findTag (deleteTag l t) u = findTag l u := by
  induction l with
  | nil => simp [deleteTag]
  | cons x rest ih =>
    simp only [deleteTag]
    by_cases hx : x.tag = t
    · rw [if_pos hx]
      simp only [findTag]
      rw [if_neg (fun hxu => h ((hxu.symm.trans hx)))]
      exact ih
    · rw [if_neg hx]
      simp only [findTag]
      by_cases hxu : x.tag = u
      · rw [if_pos hxu, if_pos hxu]
      · rw [if_neg hxu, if_neg hxu]
        exact ih

theorem findTag_setTagValue_ne {u t : String} (l : List DataElement) (v : DValue) (h : u ≠ t) :
    findTag (setTagValue l t v) u = findTag l u := by
  induction l with
  | nil => simp [setTagValue]
  | cons x rest ih =>
    simp only [setTagValue]
    by_cases hx : x.tag = t
    · rw [if_pos hx]
      simp only [findTag]
      have hxu : ¬ ({ x with value := v } : DataElement).tag = u := fun hh => h (hh.symm.trans hx)
      rw [if_neg hxu, if_neg (fun hh : x.tag = u => h (hh.symm.trans hx))]
    · rw [if_neg hx]
      simp only [findTag]
      by_cases hxu : x.tag = u
      · rw [if_pos hxu, if_pos hxu]
      · rw [if_neg hxu, if_neg hxu]
        exact ih

theorem findTag_setTagValue_none {u t : String} {l : List DataElement} (v : DValue)
    (h : findTag l u = none) : findTag (setTagValue l t v) u = none := by
  induction l with
  | nil => simp [setTagValue, findTag]
  | cons x rest ih =>
    simp only [findTag] at h
    by_cases hxu : x.tag = u
    · rw [if_pos hxu] at h; exact absurd h (by simp)
    · rw [if_neg hxu] at h
      simp only [setTagValue]
      by_cases hx : x.tag = t
      · rw [if_pos hx]
        simp only [findTag]
        rw [if_neg (show ¬ ({ x with value := v } : DataElement).tag = u from hxu)]
        simpa [findTag, hxu] using h
      · rw [if_neg hx]
        simp only [findTag]
        rw [if_neg hxu]
        exact ih h

theorem findTag_addNew_self (l : List DataElement) (ne : DataElement) :
    findTag (addNew l ne) ne.tag = some ne := by
  induction l with
  | nil => simp [addNew, findTag]
  | cons x rest ih =>
    simp only [addNew]
    by_cases hx : x.tag = ne.tag
    · rw [if_pos hx]
      simp [findTag]
    · rw [if_neg hx]
      simp only [findTag]
      rw [if_neg hx]
      exact ih

theorem findTag_addNew_ne {u : String} (l : List DataElement) (ne : DataElement)
    (h : u ≠ ne.tag) : findTag (addNew l ne) u = findTag l u := by
  induction l with
  | nil =>
    simp only [addNew, findTag]
    rw [if_neg (fun hh : ne.tag = u => h hh.symm)]
  | cons x rest ih =>
    simp only [addNew]
    by_cases hx : x.tag = ne.tag
    · rw [if_pos hx]
      simp only [findTag]
      rw [if_neg (fun hh : ne.tag = u => h hh.symm),
        if_neg (fun hh : x.tag = u => h (hh.symm.trans hx))]
    · rw [if_neg hx]
      simp only [findTag]
      by_cases hxu : x.tag = u
      · rw [if_pos hxu, if_pos hxu]
      · rw [if_neg hxu, if_neg hxu]
        exact ih

/-! ## Rejection-justification lemmas -/

theorem rejectedDICOMFileError_eq_of_ne {j : String} (h : ¬ j = "") :
    RejectedDICOMFileError j = .rejected j := by
  simp [RejectedDICOMFileError, h]

theorem rejectedDICOMFileError_nonempty {j j' : String}
    (h : RejectedDICOMFileError j = .rejected j') : ¬ j' = "" := by
  unfold RejectedDICOMFileError at h
  by_cases hj : j = ""
  · rw [if_pos hj] at h
    obtain rfl : "no justification provided" = j' := by simpa using h
    decide
  · rw [if_neg hj] at h
    obtain rfl : j = j' := by simpa using h
    exact hj

theorem isRejectedOutcome_rejectedError (j : String) (eng : Engine) (ds : Dataset) :
    isRejectedOutcome (.error (RejectedDICOMFileError j, eng, ds)) = true := by
  unfold RejectedDICOMFileError
  by_cases h : j = "" <;> simp [h, isRejectedOutcome]

theorem sopFallback_ne_empty (uid : String) :
    ¬ ("SOP Class " ++ uid ++ " is not supported") = "" := by
  intro h
  have hl := congrArg String.length h
  rw [String.length_append, String.length_append] at hl
  have h1 : ("SOP Class " : String).length = 10 := by decide
  have h2 : (" is not supported" : String).length = 17 := by decide
  have h3 : ("" : String).length = 0 := by decide
  rw [h1, h2, h3] at hl
  omega

/-! ## Walk lemmas -/

theorem getDummyValue_error_notImplemented {vr : String} {err : DeidError}
    (h : getDummyValue vr = .error err) : err = .notImplemented ("Unsupported DICOM VR: " ++ vr) := by
  unfold getDummyValue at h
  rcases hl : lookupA VR_DUMMY_VALUES vr with _ | v <;> rw [hl] at h
  · simpa using h.symm
  · simp at h

theorem applyAction_rejected {eng : Engine} {ds : Dataset} {e : DataElement} {r : ResolvedRule}
    {j : String} {eng' : Engine} {ds' : Dataset}
    (h : applyAction eng ds e r = .error (.rejected j, eng', ds')) :
    ¬ j = "" ∧ (r.justification = "" → j = "no justification provided") ∧
      (¬ r.justification = "" → j = r.justification) := by
  obtain ⟨a, jr⟩ := r
  cases a <;> simp only [applyAction] at h <;> dsimp only
  case reject =>
    have hj : RejectedDICOMFileError jr = .rejected j := by
      simp only [Except.error.injEq, Prod.mk.injEq] at h
      exact h.1
    refine ⟨rejectedDICOMFileError_nonempty hj, ?_, ?_⟩
    · intro hje
      rw [hje] at hj
      simpa [RejectedDICOMFileError] using hj.symm
    · intro hjne
      rw [rejectedDICOMFileError_eq_of_ne hjne] at hj
      simpa using hj.symm
  case remove => simp at h
  case keep => simp at h
  case uid => simp at h
  case replace =>
    rcases hd : getDummyValue e.vr with err | v <;> rw [hd] at h
    · simp only [Except.error.injEq, Prod.mk.injEq] at h
      have := getDummyValue_error_notImplemented hd
      rw [this] at h
      exact absurd h.1 (by simp)
    · simp at h
  case replace0 =>
    rcases hd : getDummyValue e.vr with err | v <;> rw [hd] at h
    · simp only [Except.error.injEq, Prod.mk.injEq] at h
      have := getDummyValue_error_notImplemented hd
      rw [this] at h
      exact absurd h.1 (by simp)
    · simp at h
  case invalid s => simp at h

theorem applyAction_of_remove {eng : Engine} {ds : Dataset} {e : DataElement} {r : ResolvedRule}
    (h : r.action = .remove) : applyAction eng ds e r = .ok (eng, ⟨deleteTag ds.elems e.tag⟩) := by
  obtain ⟨a, j⟩ := r
  cases a <;> simp_all [applyAction]

theorem applyAction_of_keep {eng : Engine} {ds : Dataset} {e : DataElement} {r : ResolvedRule}
    (h : r.action = .keep) : applyAction eng ds e r = .ok (eng, ds) := by
  obtain ⟨a, j⟩ := r
  cases a <;> simp_all [applyAction]

theorem applyAction_of_uid {eng : Engine} {ds : Dataset} {e : DataElement} {r : ResolvedRule}
    (h : r.action = .uid) :
    applyAction eng ds e r =
      .ok ((eng.remap e.value).1, ⟨setTagValue ds.elems e.tag (eng.remap e.value).2⟩) := by
  obtain ⟨a, j⟩ := r
  cases a <;> simp_all [applyAction]

theorem findTag_deleteTag_none {u t : String} {l : List DataElement}
    (h : findTag l u = none) : findTag (deleteTag l t) u = none := by
  by_cases hut : u = t
  · rw [hut]
    exact findTag_deleteTag_self l t
  · rw [findTag_deleteTag_ne l hut]
    exact h

theorem applyAction_ok_absent {eng : Engine} {ds : Dataset} {e : DataElement} {r : ResolvedRule}
    {eng1 : Engine} {ds1 : Dataset} {u : String}
    (h : applyAction eng ds e r = .ok (eng1, ds1)) (habs : findTag ds.elems u = none) :
    findTag ds1.elems u = none := by
  obtain ⟨a, j⟩ := r
  cases a <;> simp only [applyAction] at h
  case remove =>
    obtain ⟨rfl, rfl⟩ : eng = eng1 ∧ ({ elems := deleteTag ds.elems e.tag } : Dataset) = ds1 := by
      simpa using h
    exact findTag_deleteTag_none habs
  case keep =>
    obtain ⟨rfl, rfl⟩ : eng = eng1 ∧ ds = ds1 := by simpa using h
    exact habs
  case reject => simp at h
  case uid =>
    obtain ⟨rfl, rfl⟩ :
        (eng.remap e.value).1 = eng1 ∧
          ({ elems := setTagValue ds.elems e.tag (eng.remap e.value).2 } : Dataset) = ds1 := by
      simpa using h
    exact findTag_setTagValue_none _ habs
  case replace =>
    rcases hd : getDummyValue e.vr with err | v <;> rw [hd] at h
    · simp at h
    · obtain ⟨rfl, rfl⟩ :
          eng = eng1 ∧ ({ elems := setTagValue ds.elems e.tag v } : Dataset) = ds1 := by
        simpa using h
      exact findTag_setTagValue_none _ habs
  case replace0 =>
    rcases hd : getDummyValue e.vr with err | v <;> rw [hd] at h
    · simp at h
    · obtain ⟨rfl, rfl⟩ :
          eng = eng1 ∧ ({ elems := setTagValue ds.elems e.tag v } : Dataset) = ds1 := by
        simpa using h
      exact findTag_setTagValue_none _ habs
  case invalid s => simp at h

theorem walkTags_preserves_absent {al : List (String × ElementRule)} {da : ResolvedRule}
    {tags : List String} {eng : Engine} {ds : Dataset} {eng' : Engine} {ds' : Dataset}
    {u : String} (habs : findTag ds.elems u = none)
    (h : walkTags al da tags eng ds = .ok (eng', ds')) : findTag ds'.elems u = none := by
  induction tags generalizing eng ds with
  | nil =>
    obtain ⟨rfl, rfl⟩ : eng = eng' ∧ ds = ds' := by simpa [walkTags] using h
    exact habs
  | cons t rest ih =>
    simp only [walkTags] at h
    rcases hf : findTag ds.elems t with _ | e <;> rw [hf] at h <;> dsimp only at h
    · simp at h
    · rcases hh : handleElement eng al da ds e with err | p <;> rw [hh] at h
      · simp at h
      · obtain ⟨eng1, ds1⟩ := p
        exact ih (applyAction_ok_absent hh habs) h

theorem walkTags_removes {al : List (String × ElementRule)} {da : ResolvedRule}
    {tags : List String} {eng : Engine} {ds : Dataset} {eng' : Engine} {ds' : Dataset}
    {t : String} (hr : (resolveRule al da t).action = .remove) (ht : t ∈ tags)
    (h : walkTags al da tags eng ds = .ok (eng', ds')) : findTag ds'.elems t = none := by
  induction tags generalizing eng ds with
  | nil => simp at ht
  | cons u rest ih =>
    simp only [walkTags] at h
    rcases hf : findTag ds.elems u with _ | e <;> rw [hf] at h <;> dsimp only at h
    · simp at h
    · rcases hh : handleElement eng al da ds e with err | p <;> rw [hh] at h
      · simp at h
      · obtain ⟨eng1, ds1⟩ := p
        rcases List.mem_cons.mp ht with rfl | hmem
        · have het : e.tag = t := findTag_tag_eq hf
          unfold handleElement at hh
          rw [het] at hh
          rw [applyAction_of_remove hr] at hh
          obtain ⟨rfl, rfl⟩ :
              eng = eng1 ∧ ({ elems := deleteTag ds.elems e.tag } : Dataset) = ds1 := by
            simpa using hh
          have habs : findTag (deleteTag ds.elems e.tag) t = none := by
            rw [het]
            exact findTag_deleteTag_self _ _
          exact walkTags_preserves_absent habs h
        · exact ih hmem h

theorem walkTags_rejected_nonempty {al : List (String × ElementRule)} {da : ResolvedRule}
    {tags : List String} {eng : Engine} {ds : Dataset} {j : String} {eng2 : Engine}
    {ds2 : Dataset} (h : walkTags al da tags eng ds = .error (.rejected j, eng2, ds2)) :
    ¬ j = "" := by
  induction tags generalizing eng ds with
  | nil => simp [walkTags] at h
  | cons t rest ih =>
    simp only [walkTags] at h
    rcases hf : findTag ds.elems t with _ | e <;> rw [hf] at h <;> dsimp only at h
    · simp at h
    · rcases hh : handleElement eng al da ds e with err | p <;> rw [hh] at h
      · obtain rfl : err = (.rejected j, eng2, ds2) := by simpa using h
        exact (applyAction_rejected hh).1
      · obtain ⟨eng1, ds1⟩ := p
        exact ih h

theorem walkTags_keep_all {tags : List String} {eng : Engine} {ds : Dataset}
    (h : ∀ t ∈ tags, (findTag ds.elems t).isSome) :
    walkTags [] { action := .keep, justification := "" } tags eng ds = .ok (eng, ds) := by
  induction tags with
  | nil => rfl
  | cons t rest ih =>
    have := h t (List.mem_cons_self t rest)
    rcases hf : findTag ds.elems t with _ | e
    · rw [hf] at this
      simp at this
    · have hh : handleElement eng [] { action := .keep, justification := "" } ds e =
          .ok (eng, ds) := by
        unfold handleElement
        exact applyAction_of_keep rfl
      simp only [walkTags]
      rw [hf]
      dsimp only
      rw [hh]
      dsimp only
      exact ih (fun u hu => h u (List.mem_cons_of_mem _ hu))

theorem handleElement_rejected {eng : Engine} {al : List (String × ElementRule)}
    {da : ResolvedRule} {ds : Dataset} {e : DataElement} {j : String} {eng' : Engine}
    {ds' : Dataset}
    (h : handleElement eng al da ds e = .error (.rejected j, eng', ds')) :
    ¬ j = "" ∧
      ((resolveRule al da e.tag).justification = "" → j = "no justification provided") ∧
      (¬ (resolveRule al da e.tag).justification = "" →
        j = (resolveRule al da e.tag).justification) :=
  applyAction_rejected h

/-! ## Pseudonym-store invariant

The `uid_map` of an engine built by `DicomDeidentifier.init` and grown only by
`Engine.remap` stores, at position `i`, a pseudonym generated as the `i`-th
fresh identifier of this instance. -/

/-- The entries of a pseudonym store hold consecutively indexed fresh
identifiers of the instance `seed`, starting at index `base`. -/
def mapOk (seed : Nat) : Nat → List (DValue × DValue) → Prop
  | _, [] => True
  | base, p :: rest => p.2 = DValue.vuid seed base ∧ mapOk seed (base + 1) rest

/-- The reachable-state invariant of an engine's pseudonym store. -/
def Engine.Inv (eng : Engine) : Prop :=
  eng.counter = eng.uidMap.length ∧ mapOk eng.seed 0 eng.uidMap

theorem mapOk_append {seed base : Nat} {l : List (DValue × DValue)} {x : DValue × DValue}
    (hl : mapOk seed base l) (hx : x.2 = DValue.vuid seed (base + l.length)) :
    mapOk seed base (l ++ [x]) := by
  induction l generalizing base with
  | nil => exact ⟨by simpa using hx, trivial⟩
  | cons p rest ih =>
    refine ⟨hl.1, ih hl.2 ?_⟩
    rw [hx]
    simp only [List.length_cons]
    ring_nf

theorem mapOk_mem_idx {seed base : Nat} {l : List (DValue × DValue)} {p : DValue × DValue}
    (hl : mapOk seed base l) (hp : p ∈ l) : ∃ i, i < l.length ∧ p.2 = DValue.vuid seed (base + i) := by
  induction l generalizing base with
  | nil => simp at hp
  | cons q rest ih =>
    rcases List.mem_cons.mp hp with rfl | hmem
    · exact ⟨0, by simp, by simpa using hl.1⟩
    · obtain ⟨i, hi, hpi⟩ := ih hl.2 hmem
      exact ⟨i + 1, by simpa using Nat.succ_lt_succ hi, by rw [hpi]; ring_nf⟩

theorem mapOk_mem_unique {seed base : Nat} {l : List (DValue × DValue)} {v1 v2 u : DValue}
    (hl : mapOk seed base l) (h1 : (v1, u) ∈ l) (h2 : (v2, u) ∈ l) : v1 = v2 := by
  induction l generalizing base with
  | nil => simp at h1
  | cons q rest ih =>
    rcases List.mem_cons.mp h1 with he1 | hm1 <;> rcases List.mem_cons.mp h2 with he2 | hm2
    · rw [← he2] at he1
      exact congrArg Prod.fst he1
    · exfalso
      obtain ⟨i, _, hpi⟩ := mapOk_mem_idx hl.2 hm2
      have hq : q.2 = DValue.vuid seed base := hl.1
      rw [← he1] at hq
      have : (base : Nat) = base + 1 + i := by
        have := hq.symm.trans hpi
        simpa using this
      omega
    · exfalso
      obtain ⟨i, _, hpi⟩ := mapOk_mem_idx hl.2 hm1
      have hq : q.2 = DValue.vuid seed base := hl.1
      rw [← he2] at hq
      have : (base : Nat) = base + 1 + i := by
        have := hq.symm.trans hpi
        simpa using this
      omega
    · exact ih hl.2 hm1 hm2

theorem init_Inv (p : Option Procedure) (seed : Nat) : (DicomDeidentifier.init p seed).Inv :=
  ⟨rfl, trivial⟩

theorem init_seed (p : Option Procedure) (seed : Nat) :
    (DicomDeidentifier.init p seed).seed = seed := rfl

theorem remap_seed (eng : Engine) (v : DValue) : (eng.remap v).1.seed = eng.seed := by
  unfold Engine.remap
  rcases h : lookupA eng.uidMap v with _ | u <;> simp

theorem remap_Inv {eng : Engine} (hI : eng.Inv) (v : DValue) : (eng.remap v).1.Inv := by
  unfold Engine.remap
  rcases h : lookupA eng.uidMap v with _ | u
  · refine ⟨?_, ?_⟩
    · show eng.counter + 1 = (eng.uidMap ++ [(v, DValue.vuid eng.seed eng.counter)]).length
      rw [List.length_append, hI.1]
      simp
    · show mapOk eng.seed 0 (eng.uidMap ++ [(v, DValue.vuid eng.seed eng.counter)])
      exact mapOk_append hI.2 (by simp [hI.1])
  · exact hI

theorem remap_lookup_self (eng : Engine) (v : DValue) :
    lookupA (eng.remap v).1.uidMap v = some (eng.remap v).2 := by
  unfold Engine.remap
  rcases h : lookupA eng.uidMap v with _ | u
  · simpa using (lookupA_append_of_none _ h).trans (by simp [lookupA])
  · simpa using h

theorem remap_preserves_lookup {eng : Engine} {x u : DValue} (v : DValue)
    (h : lookupA eng.uidMap x = some u) : lookupA (eng.remap v).1.uidMap x = some u := by
  unfold Engine.remap
  rcases hv : lookupA eng.uidMap v with _ | w
  · simpa using lookupA_append_left _ h
  · simpa using h

theorem remapList_seed (eng : Engine) (vs : List DValue) : (remapList eng vs).seed = eng.seed := by
  induction vs generalizing eng with
  | nil => rfl
  | cons v rest ih => simpa [remapList, remap_seed] using (ih (eng.remap v).1).trans (remap_seed eng v)

theorem remapList_Inv {eng : Engine} (hI : eng.Inv) (vs : List DValue) : (remapList eng vs).Inv := by
  induction vs generalizing eng with
  | nil => exact hI
  | cons v rest ih => exact ih (remap_Inv hI v)

theorem remapList_preserves_lookup {eng : Engine} {x u : DValue} (vs : List DValue)
    (h : lookupA eng.uidMap x = some u) : lookupA (remapList eng vs).uidMap x = some u := by
  induction vs generalizing eng with
  | nil => exact h
  | cons v rest ih => exact ih (remap_preserves_lookup v h)

theorem remap_result_mem (eng : Engine) (v : DValue) :
    (v, (eng.remap v).2) ∈ (eng.remap v).1.uidMap :=
  lookupA_mem (remap_lookup_self eng v)

theorem remap_result_idx {eng : Engine} (hI : eng.Inv) (v : DValue) :
    ∃ i, i < (eng.remap v).1.counter ∧ (eng.remap v).2 = DValue.vuid eng.seed i := by
  have hmem := remap_result_mem eng v
  have hI' := remap_Inv hI v
  obtain ⟨i, hi, hpi⟩ := mapOk_mem_idx hI'.2 hmem
  refine ⟨i, ?_, by simpa [remap_seed] using hpi⟩
  rw [hI'.1]
  exact hi

/-- Remapping a value that is already memoized in the store, after any further
remaps, returns the memoized pseudonym. -/
theorem remap_stable {eng : Engine} {v u : DValue} (h : lookupA eng.uidMap v = some u) :
    (eng.remap v).2 = u := by
  unfold Engine.remap
  rw [h]

/-- Remapping a different original value than a memoized one never returns the
memoized pseudonym. -/
theorem remap_fresh_ne {eng : Engine} (hI : eng.Inv) {v w u : DValue}
    (hvw : ¬ v = w) (hv : lookupA eng.uidMap v = some u) : ¬ (eng.remap w).2 = u := by
  intro hEq
  have hvmem : (v, u) ∈ eng.uidMap := lookupA_mem hv
  unfold Engine.remap at hEq
  rcases hw : lookupA eng.uidMap w with _ | u2 <;> rw [hw] at hEq
  · simp only [] at hEq
    obtain ⟨i, hi, hpi⟩ := mapOk_mem_idx hI.2 hvmem
    rw [← hEq] at hpi
    have : eng.counter = i := by simpa using hpi
    rw [hI.1] at this
    omega
  · simp only [] at hEq
    rw [hEq] at hw
    exact hvw (mapOk_mem_unique hI.2 hvmem (lookupA_mem hw))

/-! ## Claim theorems -/

/-- C1 (confirmed): for every class procedure whose `tags` mapping contains a
rule for an element's tag, resolution uses the tag rule's action and
justification (the class default pair is never consulted); only on a tag miss
is the class default pair used; the procedure's global default and top-level
justification are not consulted at all when the class lookup hits (the result
is the matched class procedure whatever those fields hold); and resolution is
invariant under reordering of the tag rules (whose keys, being dict keys, are
distinct). -/
theorem tag_rule_overrides_class_default_overrides_global
    (al : List (String × ElementRule)) (da : ResolvedRule) (t : String)
    (proc : Procedure) (ds : Dataset) (cp : ClassProcedure) :
    (∀ r, lookupA al t = some r →
      resolveRule al da t = { action := r.default, justification := r.justification.getD "" }) ∧
    (lookupA al t = none → resolveRule al da t = da) ∧
    (sopClassLookup proc.sopClass ds = .found cp →
      ∀ d v j, getSopClassProcedure
        { default := d, version := v, justification := j, sopClass := proc.sopClass } ds
          = .ok cp) ∧
    ((al.map Prod.fst).Nodup → ∀ al', al.Perm al' → resolveRule al' da t = resolveRule al da t) := by
  refine ⟨?_, ?_, ?_, ?_⟩
  · intro r hr
    unfold resolveRule
    rw [hr]
  · intro hr
    unfold resolveRule
    rw [hr]
  · intro hfound d v j
    unfold getSopClassProcedure
    rw [show ({ default := d, version := v, justification := j, sopClass := proc.sopClass } : Procedure).sopClass = proc.sopClass from rfl, hfound]
  · intro hnd al' hperm
    unfold resolveRule
    rw [← lookupA_perm hperm hnd t]

/-- Concrete sample data for witnesses. -/
def W1al : List (String × ElementRule) :=
  [("(0010,0010)", { default := .keep, justification := some "tagJ" })]

/-- Concrete sample data for witnesses. -/
def W1da : ResolvedRule := { action := .remove, justification := "classJ" }

/-- Concrete sample data for witnesses. -/
def W1cp : ClassProcedure := { default := some .keep, justification := none, tags := [] }

/-- Concrete sample data for witnesses. -/
def W1proc : Procedure :=
  { default := none, version := none, justification := none, sopClass := some [("A", W1cp)] }

/-- Concrete sample data for witnesses. -/
def W1ds : Dataset := ⟨[{ tag := SOP_CLASS_UID_TAG, vr := "UI", value := .vstr "A" }]⟩

/-- C1 witness. -/
theorem tag_rule_overrides_witness :
    resolveRule W1al W1da "(0010,0010)" = { action := .keep, justification := "tagJ" } ∧
    resolveRule W1al W1da "(0008,0060)" = W1da ∧
    getSopClassProcedure
        { default := some .reject, version := some "v1", justification := some "topJ",
          sopClass := W1proc.sopClass } W1ds
      = .ok W1cp := by
  refine ⟨?_, ?_, ?_⟩
  · exact (tag_rule_overrides_class_default_overrides_global W1al W1da "(0010,0010)" W1proc
      W1ds W1cp).1 { default := .keep, justification := some "tagJ" } (by decide)
  · exact (tag_rule_overrides_class_default_overrides_global W1al W1da "(0008,0060)" W1proc
      W1ds W1cp).2.1 (by decide)
  · exact (tag_rule_overrides_class_default_overrides_global W1al W1da "" W1proc W1ds
      W1cp).2.2.1 (by decide) (some .reject) (some "v1") (some "topJ")

/-- C2 (confirmed): for every record that carries a class identifier with no
entry in the policy's class rules, under a policy whose global default is
unspecified (implicitly `Reject`) or explicitly `Reject` — whatever top-level
justification it configures — processing raises the `Rejected` error before
any element is visited: the error state carries the engine and dataset
unchanged, and the carried exception is the rejection built from the
configured top-level justification with the generated fallback message as its
default; when the policy configures no top-level justification, the carried
justification is exactly the generated message naming the unmatched class
identifier. -/
theorem unmatched_class_rejects_before_walk (eng : Engine) (now : String) (ds : Dataset)
    (uid : String) (hu : ds.sopClassUID = some uid)
    (hmiss : sopClassLookup eng.procedure.sopClass ds = .keyMiss)
    (hdef : eng.procedure.default = none ∨ eng.procedure.default = some .reject) :
    isRejectedOutcome (deidentifyDataset eng now ds) = true ∧
    deidentifyDataset eng now ds =
      .error (RejectedDICOMFileError
        (eng.procedure.justification.getD ("SOP Class " ++ uid ++ " is not supported")),
        eng, ds) ∧
    (eng.procedure.justification = none →
      deidentifyDataset eng now ds =
        .error (.rejected ("SOP Class " ++ uid ++ " is not supported"), eng, ds)) := by
  have hg : getSopClassProcedure eng.procedure ds =
      .error (RejectedDICOMFileError
        (eng.procedure.justification.getD ("SOP Class " ++ uid ++ " is not supported"))) := by
    unfold getSopClassProcedure
    rw [hmiss]
    have hd : eng.procedure.default.getD .reject = .reject := by
      rcases hdef with h | h <;> rw [h] <;> rfl
    rw [hd]
    rw [if_pos rfl, hu]
  have h2 : deidentifyDataset eng now ds =
      .error (RejectedDICOMFileError
        (eng.procedure.justification.getD ("SOP Class " ++ uid ++ " is not supported")),
        eng, ds) := by
    unfold deidentifyDataset
    rw [hg]
  refine ⟨?_, h2, ?_⟩
  · rw [h2]
    exact isRejectedOutcome_rejectedError _ eng ds
  · intro hj
    rw [h2, hj]
    dsimp only [Option.getD]
    rw [rejectedDICOMFileError_eq_of_ne (sopFallback_ne_empty uid)]

/-- Concrete sample data for witnesses. -/
def W2proc : Procedure :=
  { default := some .reject, version := none, justification := none,
    sopClass := some [("A", W1cp)] }

/-- Concrete sample data for witnesses: the same policy with a configured
top-level justification (as in the repository's own tests). -/
def W2jproc : Procedure :=
  { default := some .reject, version := none, justification := some "TEST default justification",
    sopClass := some [("A", W1cp)] }

/-- Concrete sample data for witnesses. -/
def W2ds : Dataset := ⟨[{ tag := SOP_CLASS_UID_TAG, vr := "UI", value := .vstr "B" }]⟩

/-- C2 witness: one policy with no top-level justification (the generated
message names class "B") and one with a configured justification (still a
rejection before the walk, carrying the configured text). -/
theorem unmatched_class_rejects_witness :
    deidentifyDataset (DicomDeidentifier.init (some W2proc) 0) "2024-01-01T00:00:00" W2ds
      = .error (.rejected ("SOP Class " ++ "B" ++ " is not supported"),
          DicomDeidentifier.init (some W2proc) 0, W2ds) ∧
    isRejectedOutcome (deidentifyDataset (DicomDeidentifier.init (some W2jproc) 0)
        "2024-01-01T00:00:00" W2ds) = true ∧
    deidentifyDataset (DicomDeidentifier.init (some W2jproc) 0) "2024-01-01T00:00:00" W2ds
      = .error (RejectedDICOMFileError "TEST default justification",
          DicomDeidentifier.init (some W2jproc) 0, W2ds) := by
  refine ⟨?_, ?_, ?_⟩
  · exact (unmatched_class_rejects_before_walk (DicomDeidentifier.init (some W2proc) 0)
      "2024-01-01T00:00:00" W2ds "B" (by decide) (by decide) (Or.inr (by decide))).2.2 (by decide)
  · exact (unmatched_class_rejects_before_walk (DicomDeidentifier.init (some W2jproc) 0)
      "2024-01-01T00:00:00" W2ds "B" (by decide) (by decide) (Or.inr (by decide))).1
  · exact (unmatched_class_rejects_before_walk (DicomDeidentifier.init (some W2jproc) 0)
      "2024-01-01T00:00:00" W2ds "B" (by decide) (by decide) (Or.inr (by decide))).2.1

/-- C3 (confirmed): through one engine instance, remapping a value that was
remapped before — later in the same record or in any later record, at any tag,
i.e. after arbitrarily many intervening remaps — returns the same pseudonym;
a remap of a different original value never returns that pseudonym; a fresh
engine instance (its own randomness source) built over any policy returns a
different pseudonym for the same original value; and an element whose resolved
action is `RemapUid` is processed exactly by replacing its value with the
remap of the original value. -/
theorem remap_uid_stable_and_instance_scoped (p q : Option Procedure) (s s' : Nat)
    (v w : DValue) (vs : List DValue) (hs : ¬ s = s') (hvw : ¬ v = w) :
    ((remapList ((DicomDeidentifier.init p s).remap v).1 vs).remap v).2
        = ((DicomDeidentifier.init p s).remap v).2 ∧
    ¬ ((remapList ((DicomDeidentifier.init p s).remap v).1 vs).remap w).2
        = ((DicomDeidentifier.init p s).remap v).2 ∧
    ¬ ((DicomDeidentifier.init q s').remap v).2 = ((DicomDeidentifier.init p s).remap v).2 ∧
    (∀ eng al da ds e, (resolveRule al da e.tag).action = .uid →
      handleElement eng al da ds e =
        .ok ((eng.remap e.value).1, ⟨setTagValue ds.elems e.tag (eng.remap e.value).2⟩)) := by
  have hlk : lookupA (remapList ((DicomDeidentifier.init p s).remap v).1 vs).uidMap v
      = some ((DicomDeidentifier.init p s).remap v).2 :=
    remapList_preserves_lookup vs (remap_lookup_self _ v)
  have hI : (remapList ((DicomDeidentifier.init p s).remap v).1 vs).Inv :=
    remapList_Inv (remap_Inv (init_Inv p s) v) vs
  refine ⟨remap_stable hlk, remap_fresh_ne hI hvw hlk, ?_, ?_⟩
  · intro hEq
    obtain ⟨i, _, hi⟩ := remap_result_idx (init_Inv q s') v
    obtain ⟨i', _, hi'⟩ := remap_result_idx (init_Inv p s) v
    rw [hi, hi'] at hEq
    rw [init_seed, init_seed] at hEq
    injection hEq with h1 h2
    exact hs h1.symm
  · intro eng al da ds e hr
    unfold handleElement
    exact applyAction_of_uid hr

/-- C3 witness. -/
theorem remap_uid_stable_witness :
    ((remapList ((DicomDeidentifier.init none 0).remap (.vstr "Test^Patient")).1
        [.vstr "CT", .vstr "MT"]).remap (.vstr "Test^Patient")).2
      = ((DicomDeidentifier.init none 0).remap (.vstr "Test^Patient")).2 ∧
    ¬ ((remapList ((DicomDeidentifier.init none 0).remap (.vstr "Test^Patient")).1
        [.vstr "CT", .vstr "MT"]).remap (.vstr "CT")).2
      = ((DicomDeidentifier.init none 0).remap (.vstr "Test^Patient")).2 ∧
    ¬ ((DicomDeidentifier.init none 1).remap (.vstr "Test^Patient")).2
      = ((DicomDeidentifier.init none 0).remap (.vstr "Test^Patient")).2 := by
  have h := remap_uid_stable_and_instance_scoped none none 0 1 (.vstr "Test^Patient") (.vstr "CT")
    [.vstr "CT", .vstr "MT"] (by decide) (by decide)
  exact ⟨h.1, h.2.1, h.2.2.1⟩

/-! ## Finalization lemmas -/

theorem findTag_setDeidMethod_ne {t : String} (proc : Procedure) (now : String) (ds : Dataset)
    (h : ¬ t = DEID_METHOD_TAG) :
    findTag (setDeidentificationMethodTag proc now ds).elems t = findTag ds.elems t :=
  findTag_addNew_ne _ _ h

theorem findTag_setDeidMethod_self (proc : Procedure) (now : String) (ds : Dataset) :
    findTag (setDeidentificationMethodTag proc now ds).elems DEID_METHOD_TAG =
      some { tag := DEID_METHOD_TAG, vr := "LO",
             value := .vstr (if existingDeidMethod ds = "" then deidMethodText proc now
               else existingDeidMethod ds ++ "; " ++ deidMethodText proc now) } :=
  findTag_addNew_self _ _

theorem findTag_isSome_of_mem_tags {l : List DataElement} {t : String}
    (h : t ∈ l.map (fun e => e.tag)) : (findTag l t).isSome := by
  obtain ⟨e, he, rfl⟩ := List.mem_map.mp h
  exact findTag_isSome_of_mem he

/-- The permissive class procedure synthesized for an unmatched class under a
`Keep` global default. -/
theorem getSopClassProcedure_keep {proc : Procedure} {ds : Dataset}
    (hmiss : sopClassLookup proc.sopClass ds = .keyMiss)
    (hkeep : proc.default = some .keep) :
    getSopClassProcedure proc ds = .ok { default := some .keep, justification := none, tags := [] } := by
  unfold getSopClassProcedure
  rw [hmiss]
  dsimp only
  rw [hkeep]
  dsimp only [Option.getD]
  rw [if_neg (by decide), if_pos rfl]

/-- C7 (confirmed): processing a record whose class identifier is unmatched
under a `Keep` global default succeeds with the engine unchanged and the output
equal to the input record with only the provenance element set: every tag other
than the provenance tag is bound exactly as before (value and presence
unchanged), and the provenance tag holds the procedure-version/timestamp text,
joined to any pre-existing provenance text with the `"; "` delimiter. -/
theorem unmatched_keep_frame (eng : Engine) (now : String) (ds : Dataset) (uid : String)
    (_hu : ds.sopClassUID = some uid)
    (hmiss : sopClassLookup eng.procedure.sopClass ds = .keyMiss)
    (hkeep : eng.procedure.default = some .keep) :
    deidentifyDataset eng now ds = .ok (eng, setDeidentificationMethodTag eng.procedure now ds) ∧
    (∀ t, ¬ t = DEID_METHOD_TAG →
      findTag (setDeidentificationMethodTag eng.procedure now ds).elems t = findTag ds.elems t) ∧
    findTag (setDeidentificationMethodTag eng.procedure now ds).elems DEID_METHOD_TAG =
      some { tag := DEID_METHOD_TAG, vr := "LO",
             value := .vstr (if existingDeidMethod ds = "" then deidMethodText eng.procedure now
               else existingDeidMethod ds ++ "; " ++ deidMethodText eng.procedure now) } := by
  refine ⟨?_, fun t ht => findTag_setDeidMethod_ne _ _ _ ht, findTag_setDeidMethod_self _ _ _⟩
  unfold deidentifyDataset
  rw [getSopClassProcedure_keep hmiss hkeep]
  dsimp only [Option.getD]
  rw [walkTags_keep_all (fun t ht => findTag_isSome_of_mem_tags ht)]

/-- Concrete sample data for witnesses. -/
def W5proc : Procedure :=
  { default := some .keep, version := none, justification := none, sopClass := some [] }

/-- Concrete sample data for witnesses. -/
def W5ds : Dataset := ⟨[{ tag := SOP_CLASS_UID_TAG, vr := "UI", value := .vstr "B" }]⟩

/-- C7 witness. -/
theorem unmatched_keep_frame_witness :
    deidentifyDataset (DicomDeidentifier.init (some W5proc) 0) "2024-01-01T00:00:00" W5ds
      = .ok (DicomDeidentifier.init (some W5proc) 0,
          setDeidentificationMethodTag W5proc "2024-01-01T00:00:00" W5ds) ∧
    findTag (setDeidentificationMethodTag W5proc "2024-01-01T00:00:00" W5ds).elems
        SOP_CLASS_UID_TAG = findTag W5ds.elems SOP_CLASS_UID_TAG := by
  have h := unmatched_keep_frame (DicomDeidentifier.init (some W5proc) 0) "2024-01-01T00:00:00"
    W5ds "B" (by decide) (by decide) (by decide)
  exact ⟨h.1, h.2.1 SOP_CLASS_UID_TAG (by decide)⟩

/-- C5 amended (the part that holds): for a fixed engine state and record, the
outcome of processing depends on the clock reading only through the provenance
element: runs with different clock readings fail identically, and when they
succeed they produce the same engine state and datasets that agree at every tag
other than the provenance tag. (Processing is a pure function of engine state,
record and clock reading, so two runs with equal clock readings are identical.) -/
theorem determinism_modulo_timestamp (eng : Engine) (ds : Dataset) (n1 n2 : String) :
    (∀ err, deidentifyDataset eng n1 ds = .error err ↔ deidentifyDataset eng n2 ds = .error err) ∧
    (∀ e1 d1 e2 d2, deidentifyDataset eng n1 ds = .ok (e1, d1) →
      deidentifyDataset eng n2 ds = .ok (e2, d2) →
      e1 = e2 ∧ ∀ t, ¬ t = DEID_METHOD_TAG → findTag d1.elems t = findTag d2.elems t) := by
  unfold deidentifyDataset
  rcases hg : getSopClassProcedure eng.procedure ds with err0 | cp <;> dsimp only
  · exact ⟨fun err => Iff.rfl, fun e1 d1 e2 d2 h1 h2 => by simp at h1⟩
  · generalize walkTags cp.tags
        { action := cp.default.getD ActionKind.remove, justification := cp.justification.getD "" }
        (List.map (fun e => e.tag) ds.elems) eng ds = w
    rcases w with errw | ⟨e0, d0⟩ <;> dsimp only
    · exact ⟨fun err => Iff.rfl, fun e1 d1 e2 d2 h1 h2 => by simp at h1⟩
    · refine ⟨fun err => by simp, fun e1 d1 e2 d2 h1 h2 => ?_⟩
      obtain ⟨rfl, rfl⟩ : e0 = e1 ∧ setDeidentificationMethodTag eng.procedure n1 d0 = d1 := by
        simpa using h1
      obtain ⟨rfl, rfl⟩ : e0 = e2 ∧ setDeidentificationMethodTag eng.procedure n2 d0 = d2 := by
        simpa using h2
      refine ⟨rfl, fun t ht => ?_⟩
      rw [findTag_setDeidMethod_ne _ _ _ ht, findTag_setDeidMethod_ne _ _ _ ht]

/-- The de-identified output for the C5 scenario as a function of the clock
reading (concrete sample data for the counterexample and witness). -/
def W5out (now : String) : Dataset :=
  ⟨[ { tag := SOP_CLASS_UID_TAG, vr := "UI", value := .vstr "B" },
     { tag := DEID_METHOD_TAG, vr := "LO",
       value := .vstr ("De-identified by Python DICOM de-identifier using procedure version "
         ++ "unknown on " ++ now ++ ".") } ]⟩

/-- C5 counterexample: a fixed policy and record under which no element
resolves to `RemapUid` (the unmatched-class `Keep` path touches no element),
yet two runs of processing — which read the wall clock, here two successive
readings — produce different output records: the provenance element embeds the
clock reading. -/
theorem determinism_bytewise_cex :
    deidentifyDataset (DicomDeidentifier.init (some W5proc) 0) "2024-01-01T00:00:00" W5ds
      = .ok (DicomDeidentifier.init (some W5proc) 0, W5out "2024-01-01T00:00:00") ∧
    deidentifyDataset (DicomDeidentifier.init (some W5proc) 0) "2024-01-01T00:00:01" W5ds
      = .ok (DicomDeidentifier.init (some W5proc) 0, W5out "2024-01-01T00:00:01") ∧
    ¬ W5out "2024-01-01T00:00:00" = W5out "2024-01-01T00:00:01" := by
  refine ⟨by decide, by decide, by decide⟩

/-- C5 witness (for the amended theorem). -/
theorem determinism_modulo_timestamp_witness :
    findTag (W5out "2024-01-01T00:00:00").elems SOP_CLASS_UID_TAG
      = findTag (W5out "2024-01-01T00:00:01").elems SOP_CLASS_UID_TAG :=
  ((determinism_modulo_timestamp (DicomDeidentifier.init (some W5proc) 0) W5ds
      "2024-01-01T00:00:00" "2024-01-01T00:00:01").2
    (DicomDeidentifier.init (some W5proc) 0) (W5out "2024-01-01T00:00:00")
    (DicomDeidentifier.init (some W5proc) 0) (W5out "2024-01-01T00:00:01")
    (by decide) (by decide)).2 SOP_CLASS_UID_TAG (by decide)

/-- C8 (confirmed): every rejection raised during the element walk carries a
non-empty justification; at the element level, when the resolved rule (tag
rule or class default pair) configures no justification (the resolved string
is empty), the error carries the fixed literal `"no justification provided"`,
and otherwise exactly the configured justification; and the literal is distinct
from every class-resolution-level fallback message. -/
theorem walk_rejection_justification_nonempty :
    (∀ eng al da ds e j eng2 ds2, handleElement eng al da ds e = .error (.rejected j, eng2, ds2) →
      ¬ j = "" ∧ ((resolveRule al da e.tag).justification = "" → j = "no justification provided") ∧
        (¬ (resolveRule al da e.tag).justification = "" →
          j = (resolveRule al da e.tag).justification)) ∧
    (∀ al da tags eng ds j eng2 ds2,
      walkTags al da tags eng ds = .error (.rejected j, eng2, ds2) → ¬ j = "") ∧
    (∀ uid, ¬ ("no justification provided" : String)
      = "SOP Class " ++ uid ++ " is not supported") := by
  refine ⟨fun eng al da ds e j eng2 ds2 h => handleElement_rejected h,
    fun al da tags eng ds j eng2 ds2 h => walkTags_rejected_nonempty h, ?_⟩
  intro uid h
  have hl := congrArg String.length h
  rw [String.length_append, String.length_append] at hl
  have h1 : ("no justification provided" : String).length = 25 := by decide
  have h2 : ("SOP Class " : String).length = 10 := by decide
  have h3 : (" is not supported" : String).length = 17 := by decide
  rw [h1, h2, h3] at hl
  omega

/-- Concrete sample data for witnesses. -/
def W8al : List (String × ElementRule) :=
  [("(0010,0010)", { default := .reject, justification := none })]

/-- Concrete sample data for witnesses. -/
def W8e : DataElement := { tag := "(0010,0010)", vr := "PN", value := .vstr "Test^Patient" }

/-- C8 witness. -/
theorem walk_rejection_justification_witness :
    ¬ ("no justification provided" : String) = "" :=
  (walk_rejection_justification_nonempty.1 (DicomDeidentifier.init none 0) W8al W1da ⟨[W8e]⟩
    W8e "no justification provided" (DicomDeidentifier.init none 0) ⟨[W8e]⟩ (by decide)).1

/-- Concrete sample data for the C9 counterexample. -/
def W9cp : ClassProcedure := { default := none, justification := some "JJ", tags := [] }

/-- Concrete sample data for the C9 counterexample. -/
def W9proc : Procedure :=
  { default := none, version := none, justification := none, sopClass := some [("CT", W9cp)] }

/-- Concrete sample data for the C9 counterexample. -/
def W9ds : Dataset :=
  ⟨[ { tag := SOP_CLASS_UID_TAG, vr := "UI", value := .vstr "CT" },
     { tag := DEID_METHOD_TAG, vr := "LO", value := .vstr "prior method" } ]⟩

/-- Concrete sample data for the C9 counterexample. -/
def W9out : Dataset :=
  ⟨[ { tag := DEID_METHOD_TAG, vr := "LO",
       value := .vstr
         "De-identified by Python DICOM de-identifier using procedure version unknown on NOW." } ]⟩

/-- C9 counterexample: a record of a matched class whose class procedure
specifies no class-level default. The element at the provenance tag
`(0012,0063)` has no tag rule, yet after successful processing that tag is
present in the record (finalization re-adds it with fresh provenance text), so
the element is not "deleted from the record"; moreover the resolved
justification is the class procedure's configured justification `"JJ"`, not
the empty string. -/
theorem class_default_remove_cex :
    deidentifyDataset (DicomDeidentifier.init (some W9proc) 0) "NOW" W9ds
      = .ok (DicomDeidentifier.init (some W9proc) 0, W9out) ∧
    (findTag W9out.elems DEID_METHOD_TAG).isSome = true ∧
    (resolveRule W9cp.tags
        { action := W9cp.default.getD .remove, justification := W9cp.justification.getD "" }
        DEID_METHOD_TAG).justification = "JJ" := by
  refine ⟨by decide, by decide, by decide⟩

/-- C9 amended (the part that holds): for a matched class procedure with no
class-level default, an element whose tag has no tag rule resolves to the
`Remove` action with the class-level justification — the empty string exactly
when the class procedure configures none — and, when processing succeeds, every
such tag other than the provenance tag (which finalization re-adds) is absent
from the output record. -/
theorem missing_class_default_removes (eng : Engine) (now : String) (ds : Dataset)
    (cp : ClassProcedure) (t : String)
    (hfound : sopClassLookup eng.procedure.sopClass ds = .found cp)
    (hnodef : cp.default = none) (hno : lookupA cp.tags t = none) :
    resolveRule cp.tags
        { action := cp.default.getD .remove, justification := cp.justification.getD "" } t
      = { action := .remove, justification := cp.justification.getD "" } ∧
    (∀ eng' d', deidentifyDataset eng now ds = .ok (eng', d') →
      t ∈ ds.elems.map (fun e => e.tag) → ¬ t = DEID_METHOD_TAG →
      findTag d'.elems t = none) := by
  have hres : resolveRule cp.tags
      { action := cp.default.getD .remove, justification := cp.justification.getD "" } t
      = { action := .remove, justification := cp.justification.getD "" } := by
    unfold resolveRule
    rw [hno, hnodef]
    rfl
  refine ⟨hres, fun eng' d' hok ht hne => ?_⟩
  have hg : getSopClassProcedure eng.procedure ds = .ok cp := by
    unfold getSopClassProcedure
    rw [hfound]
  unfold deidentifyDataset at hok
  rw [hg] at hok
  dsimp only at hok
  rcases hw : walkTags cp.tags
      { action := cp.default.getD ActionKind.remove, justification := cp.justification.getD "" }
      (List.map (fun e => e.tag) ds.elems) eng ds with errw | p
  · rw [hw] at hok
    simp at hok
  · obtain ⟨e0, d0⟩ := p
    rw [hw] at hok
    dsimp only at hok
    obtain ⟨rfl, rfl⟩ : e0 = eng' ∧ setDeidentificationMethodTag eng.procedure now d0 = d' := by
      simpa using hok
    have hd0 : findTag d0.elems t = none :=
      walkTags_removes (by rw [hres]) ht hw
    rw [findTag_setDeidMethod_ne _ _ _ hne]
    exact hd0

/-- Concrete sample data for the C9 witness. -/
def W9bcp : ClassProcedure := { default := none, justification := none, tags := [] }

/-- Concrete sample data for the C9 witness. -/
def W9bproc : Procedure :=
  { default := none, version := none, justification := none, sopClass := some [("CT", W9bcp)] }

/-- Concrete sample data for the C9 witness. -/
def W9bds : Dataset :=
  ⟨[ { tag := SOP_CLASS_UID_TAG, vr := "UI", value := .vstr "CT" },
     { tag := "(0010,0010)", vr := "PN", value := .vstr "Test^Patient" } ]⟩

/-- C9 witness (for the amended theorem). -/
theorem missing_class_default_removes_witness :
    findTag W9out.elems "(0010,0010)" = none :=
  (missing_class_default_removes (DicomDeidentifier.init (some W9bproc) 0) "NOW" W9bds W9bcp
      "(0010,0010)" (by decide) (by decide) (by decide)).2
    (DicomDeidentifier.init (some W9bproc) 0) W9out (by decide) (by decide) (by decide)

/-! ## Class-resolution error-path lemmas -/

theorem deidentify_error_of_getSop {eng : Engine} {now : String} {ds : Dataset} {err : DeidError}
    (h : getSopClassProcedure eng.procedure ds = .error err) :
    deidentifyDataset eng now ds = .error (err, eng, ds) := by
  unfold deidentifyDataset
  rw [h]

theorem getSop_attr_of_attrMiss {proc : Procedure} {ds : Dataset}
    (h : sopClassLookup proc.sopClass ds = .attrMiss) :
    getSopClassProcedure proc ds = .error (.attributeError "SOPClassUID") := by
  unfold getSopClassProcedure
  rw [h]

theorem sopClassLookup_attrMiss {rules : List (String × ClassProcedure)} {ds : Dataset}
    (h : ds.sopClassUID = none) : sopClassLookup (some rules) ds = .attrMiss := by
  unfold sopClassLookup
  rw [h]

theorem getSop_attr_of_keyMiss_no_uid {proc : Procedure} {ds : Dataset}
    (hnone : ds.sopClassUID = none) (hmiss : sopClassLookup proc.sopClass ds = .keyMiss)
    (hdef : proc.default = none ∨ proc.default = some .reject) :
    getSopClassProcedure proc ds = .error (.attributeError "SOPClassUID") := by
  unfold getSopClassProcedure
  rw [hmiss]
  have hd : proc.default.getD .reject = .reject := by
    rcases hdef with h | h <;> rw [h] <;> rfl
  rw [hd, if_pos rfl, hnone]

/-- C4 amended (the behavior the code actually has): a record with no class
identifier is treated as "no class match" only when the policy carries no
class-rules mapping at all and its global default is `Keep` (the permissive
class procedure is synthesized); when the policy has a class-rules mapping the
class lookup itself raises an attribute-resolution error, and when the global
default is `Reject` (or unspecified) the eagerly evaluated fallback message
raises the same attribute-resolution error while composing the rejection —
in both failing shapes the error leaves the record unchanged. -/
theorem missing_class_id_behavior (eng : Engine) (now : String) (ds : Dataset)
    (hnone : ds.sopClassUID = none) :
    (∀ rules, eng.procedure.sopClass = some rules →
      deidentifyDataset eng now ds = .error (.attributeError "SOPClassUID", eng, ds)) ∧
    (eng.procedure.sopClass = none →
      (eng.procedure.default = none ∨ eng.procedure.default = some .reject) →
      deidentifyDataset eng now ds = .error (.attributeError "SOPClassUID", eng, ds)) ∧
    (eng.procedure.sopClass = none → eng.procedure.default = some .keep →
      getSopClassProcedure eng.procedure ds
        = .ok { default := some .keep, justification := none, tags := [] }) := by
  refine ⟨?_, ?_, ?_⟩
  · intro rules hrules
    refine deidentify_error_of_getSop (getSop_attr_of_attrMiss ?_)
    rw [hrules]
    exact sopClassLookup_attrMiss hnone
  · intro hsn hdef
    refine deidentify_error_of_getSop (getSop_attr_of_keyMiss_no_uid hnone ?_ hdef)
    rw [hsn]
    rfl
  · intro hsn hkeep
    refine getSopClassProcedure_keep ?_ hkeep
    rw [hsn]
    rfl

/-- Concrete sample data for the C4 counterexample. -/
def W4proc : Procedure :=
  { default := some .keep, version := none, justification := none, sopClass := some [("A", W1cp)] }

/-- Concrete sample data for the C4 counterexample: a record with no class
identifier. -/
def W4dsMissing : Dataset := ⟨[{ tag := "(0010,0010)", vr := "PN", value := .vstr "X" }]⟩

/-- Concrete sample data for the C4 counterexample: a record whose class
identifier matches no class rule. -/
def W4dsUnmatched : Dataset :=
  ⟨[ { tag := SOP_CLASS_UID_TAG, vr := "UI", value := .vstr "B" },
     { tag := "(0010,0010)", vr := "PN", value := .vstr "X" } ]⟩

/-- Concrete sample data for the C4 counterexample. -/
def W4outUnmatched : Dataset :=
  ⟨[ { tag := SOP_CLASS_UID_TAG, vr := "UI", value := .vstr "B" },
     { tag := "(0010,0010)", vr := "PN", value := .vstr "X" },
     { tag := DEID_METHOD_TAG, vr := "LO",
       value := .vstr
         "De-identified by Python DICOM de-identifier using procedure version unknown on NOW." } ]⟩

/-- C4 counterexample: under a policy with class rules and global default
`Keep`, a record whose class identifier matches no class rule is processed
successfully (the "no class match" path keeps it and stamps provenance), but a
record missing its class identifier is not treated that way: it fails with the
attribute-resolution error instead. -/
theorem missing_class_id_cex :
    deidentifyDataset (DicomDeidentifier.init (some W4proc) 0) "NOW" W4dsMissing
      = .error (.attributeError "SOPClassUID", DicomDeidentifier.init (some W4proc) 0,
          W4dsMissing) ∧
    deidentifyDataset (DicomDeidentifier.init (some W4proc) 0) "NOW" W4dsUnmatched
      = .ok (DicomDeidentifier.init (some W4proc) 0, W4outUnmatched) := by
  refine ⟨by decide, by decide⟩

/-- C4 witness (for the amended theorem). -/
theorem missing_class_id_behavior_witness :
    deidentifyDataset (DicomDeidentifier.init none 0) "NOW" W4dsMissing
      = .error (.attributeError "SOPClassUID", DicomDeidentifier.init none 0, W4dsMissing) :=
  (missing_class_id_behavior (DicomDeidentifier.init none 0) "NOW" W4dsMissing
    (by decide)).2.1 (by decide) (Or.inl (by decide))

/-- Concrete sample data for the C6 counterexample. -/
def W6cp : ClassProcedure :=
  { default := none, justification := none,
    tags := [("(0010,0010)", { default := .remove, justification := none })] }

/-- Concrete sample data for the C6 counterexample: a policy whose top-level
default is not an `ActionKind` member. -/
def W6proc : Procedure :=
  { default := some (.invalid "NOT_A_VALID_ACTION"), version := none, justification := none,
    sopClass := some [("A", W6cp)] }

/-- Concrete sample data for the C6 counterexample. -/
def W6ds : Dataset :=
  ⟨[ { tag := SOP_CLASS_UID_TAG, vr := "UI", value := .vstr "A" },
     { tag := "(0010,0010)", vr := "PN", value := .vstr "X" } ]⟩

/-- Concrete sample data for the C6 counterexample. -/
def W6out : Dataset :=
  ⟨[ { tag := DEID_METHOD_TAG, vr := "LO",
       value := .vstr
         "De-identified by Python DICOM de-identifier using procedure version unknown on NOW." } ]⟩

/-- C6 counterexample: construction with a policy whose global default is
neither `Reject` nor `Keep` does not fail — the engine is built and stores the
policy unvalidated — and a record whose class matches a class rule is then
processed and mutated under that policy (its elements are removed), so "no
record is ever mutated under such a policy" is false as well. -/
theorem invalid_global_default_construction_cex :
    (DicomDeidentifier.init (some W6proc) 0).procedure = W6proc ∧
    deidentifyDataset (DicomDeidentifier.init (some W6proc) 0) "NOW" W6ds
      = .ok (DicomDeidentifier.init (some W6proc) 0, W6out) ∧
    findTag W6ds.elems "(0010,0010)" = some { tag := "(0010,0010)", vr := "PN", value := .vstr "X" } ∧
    findTag W6out.elems "(0010,0010)" = none := by
  refine ⟨rfl, by decide, by decide, by decide⟩

/-- C6 amended (the behavior the code actually has): construction never
validates the policy (the engine stores it as given); a global default that is
neither `Reject` nor `Keep` raises the unimplemented-action error only when it
is consulted — while processing a record whose class has no entry in the class
rules — and that error leaves the record unchanged; a record whose class
matches a class rule is processed normally (and may be mutated, as the
counterexample shows). -/
theorem invalid_global_default_lazy_failure (p : Procedure) (s : Nat) (now : String)
    (ds : Dataset) (a : ActionKind) (ha : p.default = some a) (har : ¬ a = .reject)
    (hak : ¬ a = .keep) (hmiss : sopClassLookup p.sopClass ds = .keyMiss) :
    (DicomDeidentifier.init (some p) s).procedure = p ∧
    deidentifyDataset (DicomDeidentifier.init (some p) s) now ds =
      .error (.notImplemented ("Default action " ++ a.render ++ " not implemented"),
        DicomDeidentifier.init (some p) s, ds) := by
  refine ⟨rfl, ?_⟩
  refine deidentify_error_of_getSop ?_
  show getSopClassProcedure p ds = _
  unfold getSopClassProcedure
  rw [hmiss]
  dsimp only
  rw [ha]
  dsimp only [Option.getD]
  rw [if_neg har, if_neg hak]

/-- Concrete sample data for the C6 witness. -/
def W6dsB : Dataset := ⟨[{ tag := SOP_CLASS_UID_TAG, vr := "UI", value := .vstr "B" }]⟩

/-- C6 witness (for the amended theorem). -/
theorem invalid_global_default_lazy_failure_witness :
    deidentifyDataset (DicomDeidentifier.init (some W6proc) 0) "NOW" W6dsB =
      .error (.notImplemented ("Default action " ++ "NOT_A_VALID_ACTION" ++ " not implemented"),
        DicomDeidentifier.init (some W6proc) 0, W6dsB) :=
  (invalid_global_default_lazy_failure W6proc 0 "NOW" W6dsB (.invalid "NOT_A_VALID_ACTION")
    (by decide) (by decide) (by decide) (by decide)).2

/-- C10 counterexample: an engine constructed with no procedure does raise for
every record, but not always the `Rejected` error: a record with no class
identifier raises the attribute-resolution error (the eagerly evaluated
rejection fallback message reads the missing identifier), not the rejection. -/
theorem empty_procedure_rejects_cex :
    deidentifyDataset (DicomDeidentifier.init none 0) "NOW" ⟨[]⟩
      = .error (.attributeError "SOPClassUID", DicomDeidentifier.init none 0, ⟨[]⟩) ∧
    isRejectedOutcome (deidentifyDataset (DicomDeidentifier.init none 0) "NOW" ⟨[]⟩) = false := by
  refine ⟨by decide, by decide⟩

/-- C10 amended (the part that holds): an engine constructed with no procedure
(or an empty mapping — `procedure or {}` stores the same empty mapping) raises,
for every record that carries a class identifier, the `Rejected` error naming
that identifier, before any element is visited or mutated (the error state
carries the record unchanged); a record with no class identifier raises the
attribute-resolution error instead, likewise before any mutation. -/
theorem empty_procedure_rejects_all (s : Nat) (now : String) (ds : Dataset) :
    (∀ uid, ds.sopClassUID = some uid →
      deidentifyDataset (DicomDeidentifier.init none s) now ds =
        .error (.rejected ("SOP Class " ++ uid ++ " is not supported"),
          DicomDeidentifier.init none s, ds)) ∧
    (ds.sopClassUID = none →
      deidentifyDataset (DicomDeidentifier.init none s) now ds =
        .error (.attributeError "SOPClassUID", DicomDeidentifier.init none s, ds)) := by
  constructor
  · intro uid hu
    refine deidentify_error_of_getSop ?_
    show getSopClassProcedure emptyProcedure ds = _
    unfold getSopClassProcedure
    rw [show sopClassLookup emptyProcedure.sopClass ds = .keyMiss from rfl]
    dsimp only [emptyProcedure, Option.getD]
    rw [if_pos rfl, hu]
    dsimp only
    rw [rejectedDICOMFileError_eq_of_ne (sopFallback_ne_empty uid)]
  · intro hnone
    exact deidentify_error_of_getSop
      (getSop_attr_of_keyMiss_no_uid hnone rfl (Or.inl rfl))

/-- C10 witness (for the amended theorem). -/
theorem empty_procedure_rejects_all_witness :
    deidentifyDataset (DicomDeidentifier.init none 0) "NOW" W2ds =
      .error (.rejected ("SOP Class " ++ "B" ++ " is not supported"),
        DicomDeidentifier.init none 0, W2ds) :=
  (empty_procedure_rejects_all 0 "NOW" W2ds).1 "B" (by decide)

end DicomDeid
